import Mathlib

/-!
Shallow embedding of `db.py` (guoweikuang/db): a per-thread connection
manager and transaction coordinator over a relational database driver.

The embedding models the thread-local context `_Dbctx`, the lazy
connection `_LazyConnection`, the scope guards `_ConnectionCtx` and
`_Transactions`, the statement executor `_update`, the initialization
entrypoint `create_engine`, and the row record class `Field`.

Driver-level effects (opening a raw connection, commit, rollback, close)
are recorded in an event log; driver failures are injected through a
behaviour parameter (`Beh`).  Python exceptions are modelled with an
error type threaded as `Option PyErr` next to the state, so that
`finally`-style cleanup can be expressed faithfully.
-/

/-- Python exceptions relevant to `db.py`. -/
inductive PyErr where
  /-- `AttributeError`, e.g. calling `.commit()` on `None`. -/
  | attrError
  /-- `DBError` raised by `create_engine` on double initialization. -/
  | dbError
  /-- a driver-level commit failure. -/
  | commitError
  /-- a driver-level rollback failure. -/
  | rollbackError
  /-- an exception raised by a user-supplied scope body. -/
  | bodyError
  /-- `AssertionError` raised by `Field.__getattr__`. -/
  | assertionError
deriving DecidableEq, Repr

/-- Observable events: driver calls on raw connections (identified by the
order in which `engine.connect()` produced them) and the commit/rollback
decision taken by `_Transactions.__exit__` when depth returns to 0. -/
inductive Ev where
  | openC (id : Nat)
  | commitC (id : Nat)
  | rollbackC (id : Nat)
  | closeC (id : Nat)
  | decideCommit
  | decideRollback
deriving DecidableEq, Repr

/-- Behaviour of the external driver: whether commit/rollback on a given
raw connection fails. -/
structure Beh where
  commitFails : Nat → Bool
  rollbackFails : Nat → Bool

/-- `_LazyConnection`: wraps at most one raw driver connection;
`connection = none` means the raw connection was never opened. -/
structure LazyConn where
  connection : Option Nat
deriving DecidableEq, Repr

/-- `_LazyConnection.cursor`: opens the raw connection on first use.
Returns the updated lazy connection, the raw connection id, the emitted
events and the updated fresh-id counter. -/
def LazyConn.cursor (lc : LazyConn) (fresh : Nat) : LazyConn × Nat × List Ev × Nat :=
  match lc.connection with
  | some id => (lc, id, [], fresh)
  | none => (⟨some fresh⟩, fresh, [Ev.openC fresh], fresh + 1)

/-- `_LazyConnection.commit`: `return self.connection.commit()`.
If the raw connection was never opened this is `None.commit()`, an
`AttributeError`; otherwise the driver commit is attempted and may fail. -/
def LazyConn.commit (beh : Beh) (lc : LazyConn) : List Ev × Option PyErr :=
  match lc.connection with
  | none => ([], some PyErr.attrError)
  | some id => ([Ev.commitC id], if beh.commitFails id then some PyErr.commitError else none)

/-- `_LazyConnection.rollback`: `return self.connection.rollback()`. -/
def LazyConn.rollback (beh : Beh) (lc : LazyConn) : List Ev × Option PyErr :=
  match lc.connection with
  | none => ([], some PyErr.attrError)
  | some id => ([Ev.rollbackC id], if beh.rollbackFails id then some PyErr.rollbackError else none)

/-- `_LazyConnection.cleanup`: closes the raw connection if open;
idempotent when already unopened. -/
def LazyConn.cleanup (lc : LazyConn) : LazyConn × List Ev :=
  match lc.connection with
  | none => (lc, [])
  | some id => (⟨none⟩, [Ev.closeC id])

/-- `_Dbctx`: the thread-local context. `transactions` is a Python int
(modelled as `Int`, so that the depth invariant `0 ≤ transactions` is a
genuine statement). -/
structure Dbctx where
  connection : Option LazyConn
  transactions : Int
deriving DecidableEq, Repr

/-- The full per-thread state: the context, a fresh-id counter for raw
connections produced by `engine.connect()`, and the event log. -/
structure World where
  ctx : Dbctx
  nextId : Nat
  events : List Ev
deriving DecidableEq, Repr

/-- Append events to the log. -/
def World.emit (w : World) (es : List Ev) : World :=
  { w with events := w.events ++ es }

/-- `_Dbctx.is_init`. -/
def Dbctx.is_init (c : Dbctx) : Bool :=
  c.connection.isSome

/-- `_Dbctx.init`: installs a fresh (unopened) `_LazyConnection` and
resets the transaction depth to 0. -/
def ctx_init (w : World) : World :=
  { w with ctx := { connection := some ⟨none⟩, transactions := 0 } }

/-- `_Dbctx.cleanup`: `self.connection.cleanup(); self.connection = None`.
If the context holds no connection, `None.cleanup()` is an
`AttributeError`. -/
def ctx_cleanup (w : World) : World × Option PyErr :=
  match w.ctx.connection with
  | none => (w, some PyErr.attrError)
  | some lc =>
    let r := lc.cleanup
    ({ w with ctx := { w.ctx with connection := none }, events := w.events ++ r.2 }, none)

/-- `_ConnectionCtx.__enter__`: initialize the context if needed and
record ownership (`should_cleanup`). -/
def ConnectionCtx_enter (w : World) : World × Bool :=
  if w.ctx.is_init then (w, false) else (ctx_init w, true)

/-- `_ConnectionCtx.__exit__`: clean up only if this scope created the
connection (the exception arguments are ignored by the source). -/
def ConnectionCtx_exit (should_cleanup : Bool) (w : World) : World × Option PyErr :=
  if should_cleanup then ctx_cleanup w else (w, none)

/-- `_Transactions.__enter__`: initialize the context if needed, record
ownership (`should_close_conn`), then increment the nesting depth. -/
def Transactions_enter (w : World) : World × Bool :=
  let r := if w.ctx.is_init then (w, false) else (ctx_init w, true)
  ({ r.1 with ctx := { r.1.ctx with transactions := r.1.ctx.transactions + 1 } }, r.2)

/-- `_db_ctx.connection.commit()`: attribute access on the context's
connection followed by the lazy connection's commit. -/
def conn_commit (beh : Beh) (w : World) : World × Option PyErr :=
  match w.ctx.connection with
  | none => (w, some PyErr.attrError)
  | some lc =>
    let r := lc.commit beh
    (w.emit r.1, r.2)

/-- `_db_ctx.connection.rollback()`. -/
def conn_rollback (beh : Beh) (w : World) : World × Option PyErr :=
  match w.ctx.connection with
  | none => (w, some PyErr.attrError)
  | some lc =>
    let r := lc.rollback beh
    (w.emit r.1, r.2)

/-- `_Transactions.commit`: try the connection commit; a bare `except`
catches any failure and falls back to a rollback on the same connection,
whose own failure (if any) propagates. -/
def Transactions_commit (beh : Beh) (w : World) : World × Option PyErr :=
  let r := conn_commit beh w
  match r.2 with
  | none => (r.1, none)
  | some _ => conn_rollback beh r.1

/-- `_Transactions.rollback`: delegates to the connection rollback;
failures propagate. -/
def Transactions_rollback (beh : Beh) (w : World) : World × Option PyErr :=
  conn_rollback beh w

/-- The decision step of `_Transactions.__exit__`, after the depth
decrement: if the depth reached 0, commit (no exception) or roll back
(exception); otherwise do nothing.  A `decide*` event records which
decision was taken. -/
def Transactions_exit_decide (beh : Beh) (excRaised : Bool) (w1 : World) :
    World × Option PyErr :=
  if w1.ctx.transactions = 0 then
    if excRaised then Transactions_rollback beh (w1.emit [Ev.decideRollback])
    else Transactions_commit beh (w1.emit [Ev.decideCommit])
  else (w1, none)

/-- The `finally` block of `_Transactions.__exit__`: clean up the context
if this scope owns the connection; an error raised here supersedes one
raised by the decision step. -/
def Transactions_finally (should_close_conn : Bool) (r1 : World × Option PyErr) :
    World × Option PyErr :=
  if should_close_conn then
    let r2 := ctx_cleanup r1.1
    (r2.1, r2.2.orElse (fun _ => r1.2))
  else r1

/-- `_Transactions.__exit__`: decrement the depth, take the depth-0
commit/rollback decision, then run the `finally` cleanup. -/
def Transactions_exit (beh : Beh) (should_close_conn : Bool) (excRaised : Bool)
    (w : World) : World × Option PyErr :=
  Transactions_finally should_close_conn
    (Transactions_exit_decide beh excRaised
      { w with ctx := { w.ctx with transactions := w.ctx.transactions - 1 } })

/-- `_update` (to which `update` and `insert` delegate), wrapped by
`@with_connection`: enter a connection scope, request a cursor (opening
the raw connection on first use), execute the statement (its affected-row
count `rc` is a parameter; driver execution failures are out of scope of
the claims settled here), auto-commit iff the transaction depth is 0
(`if not _db_ctx.transactions`), and return the row count.  The result is
the final world, the propagated error (if any), and the returned value. -/
def update_run (beh : Beh) (rc : Nat) (w : World) : World × Option PyErr × Option Nat :=
  let r0 := ConnectionCtx_enter w
  match r0.1.ctx.connection with
  | none =>
    -- unreachable after `__enter__`; `None.cursor()` would be an AttributeError
    let r3 := ConnectionCtx_exit r0.2 r0.1
    (r3.1, r3.2.orElse (fun _ => some PyErr.attrError), none)
  | some lc =>
    let rc1 := lc.cursor r0.1.nextId
    let w1 : World :=
      ⟨{ r0.1.ctx with connection := some rc1.1 }, rc1.2.2.2, r0.1.events ++ rc1.2.2.1⟩
    let r2 : World × Option PyErr :=
      if w1.ctx.transactions = 0 then
        let c := rc1.1.commit beh
        (w1.emit c.1, c.2)
      else (w1, none)
    let r3 := ConnectionCtx_exit r0.2 r2.1
    (r3.1, r3.2.orElse (fun _ => r2.2),
      if r2.2 = none ∧ r3.2 = none then some rc else none)

/-- `insert`: builds an INSERT statement from the field mapping and
delegates to `_update`; its connection/transaction behaviour is exactly
that of `update_run`. -/
def insert_run (beh : Beh) (rc : Nat) (w : World) : World × Option PyErr × Option Nat :=
  update_run beh rc w

/-- Client programs over the scope guards: a body step that may raise,
an `update` statement, sequencing, `with _ConnectionCtx():` and
`with _Transactions():` blocks. -/
inductive Prog where
  | skip
  | raiseE
  | doUpdate (rc : Nat)
  | seq (p q : Prog)
  | withConn (body : Prog)
  | withTx (body : Prog)

/-- Big-step execution with Python `with` semantics: the guard's
`__exit__` runs on every exit path; since both guards' `__exit__` return
`None` (falsy), a body exception propagates unless the exit itself
raises, in which case the exit's exception supersedes. -/
def run (beh : Beh) : Prog → World → World × Option PyErr
  | Prog.skip, w => (w, none)
  | Prog.raiseE, w => (w, some PyErr.bodyError)
  | Prog.doUpdate rc, w =>
    let r := update_run beh rc w
    (r.1, r.2.1)
  | Prog.seq p q, w =>
    let r1 := run beh p w
    match r1.2 with
    | some e => (r1.1, some e)
    | none => run beh q r1.1
  | Prog.withConn body, w =>
    let r0 := ConnectionCtx_enter w
    let r1 := run beh body r0.1
    let r2 := ConnectionCtx_exit r0.2 r1.1
    (r2.1, r2.2.orElse (fun _ => r1.2))
  | Prog.withTx body, w =>
    let r0 := Transactions_enter w
    let r1 := run beh body r0.1
    let r2 := Transactions_exit beh r0.2 r1.2.isSome r1.1
    (r2.1, r2.2.orElse (fun _ => r1.2))

/-- Is an event a transaction decision (the commit-or-rollback choice
made by `_Transactions.__exit__` at depth 0)? -/
def isDecision : Ev → Bool
  | Ev.decideCommit => true
  | Ev.decideRollback => true
  | _ => false

/-- The decision events of a world, in order. -/
def decisions (w : World) : List Ev :=
  w.events.filter isDecision

/-- Is an event a driver-level commit? -/
def isDriverCommit : Ev → Bool
  | Ev.commitC _ => true
  | _ => false

/-- Number of driver-level commits issued so far. -/
def commitCount (w : World) : Nat :=
  (w.events.filter isDriverCommit).length

/-- The state invariant of the thread-local context: depth is never
negative, and positive depth implies an installed connection. -/
def CtxInv (w : World) : Prop :=
  0 ≤ w.ctx.transactions ∧ (0 < w.ctx.transactions → w.ctx.connection.isSome)

instance (w : World) : Decidable (CtxInv w) := by
  unfold CtxInv; infer_instance

/-- A driver that never fails. -/
def beh0 : Beh :=
  ⟨fun _ => false, fun _ => false⟩

/-- The initial world of a thread: no connection, depth 0, empty log. -/
def w0 : World :=
  ⟨⟨none, 0⟩, 0, []⟩

/-- Python-dict item assignment on an ordered association list:
overwrite in place if the key exists, otherwise append. -/
def dictSet {α : Type} (m : List (String × α)) (k : String) (v : α) : List (String × α) :=
  if m.any (fun p => p.1 = k) then
    m.map (fun p => if p.1 = k then (k, v) else p)
  else m ++ [(k, v)]

/-- Python `dict.update`: item-assign every pair in turn. -/
def dictUpdate {α : Type} (m kvs : List (String × α)) : List (String × α) :=
  kvs.foldl (fun acc kv => dictSet acc kv.1 kv.2) m

/-- `kwargs.pop(k, d)`, value part: the value bound to `k`, or the
default `d`. -/
def kwLookup (kw : List (String × String)) (k d : String) : String :=
  match kw.find? (fun p => p.1 = k) with
  | some p => p.2
  | none => d

/-- `kwargs.pop(k, d)`, removal part: the kwargs without key `k`. -/
def kwRemove (kw : List (String × String)) (k : String) : List (String × String) :=
  kw.filter (fun p => p.1 ≠ k)

/-- The arguments of `create_engine`. -/
structure CEArgs where
  username : String
  password : String
  database : String
  host : String
  port : Nat
  kwargs : List (String × String)

/-- The connection-parameter dict assembled by `create_engine`: the base
params, then `charset` / `use_unicode` popped from kwargs with defaults
`utf8mb4` / `True`, then the remaining kwargs merged in. -/
def buildParams (a : CEArgs) : List (String × String) :=
  let params0 : List (String × String) :=
    [("user", a.username), ("passwd", a.password), ("db", a.database),
     ("host", a.host), ("port", toString a.port)]
  let params1 := dictSet params0 "charset" (kwLookup a.kwargs "charset" "utf8mb4")
  let kw1 := kwRemove a.kwargs "charset"
  let params2 := dictSet params1 "use_unicode" (kwLookup kw1 "use_unicode" "True")
  let kw2 := kwRemove kw1 "use_unicode"
  dictUpdate params2 kw2

/-- `create_engine`: raises `DBError("Engine is already initialized")`
without touching the module-level `engine` if one is installed;
otherwise installs an `_Engine` holding the assembled parameters (the
engine is identified with the parameters its closure captures). -/
def create_engine (g : Option (List (String × String))) (a : CEArgs) :
    Option (List (String × String)) × Option PyErr :=
  match g with
  | some e => (some e, some PyErr.dbError)
  | none => (some (buildParams a), none)

/-- The `Field` record class (named `Record` here, as in the spec, since
the source name collides with an unrelated mathematical notion): a dict
with attribute-style access over query-result rows, modelled as an
ordered association list with Python-dict insertion semantics. -/
abbrev Record (α : Type) : Type :=
  List (String × α)

/-- `Field.__init__`: item-assign each key/value pair of
`zip(keys, values)` in order into an empty dict. -/
def Record.ofLists {α : Type} (keys : List String) (values : List α) : Record α :=
  (keys.zip values).foldl (fun f kv => dictSet f kv.1 kv.2) []

/-- `Field.__getattr__`: `return self[item]`, with the `KeyError` of a
missing key caught and re-raised as an `AssertionError`. -/
def Record.getattr {α : Type} (f : Record α) (item : String) : Except PyErr α :=
  match List.find? (fun p => p.1 = item) f with
  | some p => Except.ok p.2
  | none => Except.error PyErr.assertionError

/-- `Field.__setattr__`: `self[key] = value`. -/
def Record.setattr {α : Type} (f : Record α) (k : String) (v : α) : Record α :=
  dictSet f k v

/-! ### Spec lemmas for the atomic operations -/

lemma ConnectionCtx_enter_init (w : World) (h : w.ctx.connection.isSome) :
    ConnectionCtx_enter w = (w, false) := by
  simp [ConnectionCtx_enter, Dbctx.is_init, h]

lemma ConnectionCtx_enter_uninit (w : World) (h : w.ctx.connection = none) :
    ConnectionCtx_enter w = (ctx_init w, true) := by
  simp [ConnectionCtx_enter, Dbctx.is_init, h]

lemma Transactions_enter_init (w : World) (h : w.ctx.connection.isSome) :
    Transactions_enter w =
      ({ w with ctx := { w.ctx with transactions := w.ctx.transactions + 1 } }, false) := by
  simp [Transactions_enter, Dbctx.is_init, h]

lemma Transactions_enter_uninit (w : World) (h : w.ctx.connection = none) :
    Transactions_enter w = (⟨⟨some ⟨none⟩, 1⟩, w.nextId, w.events⟩, true) := by
  simp [Transactions_enter, Dbctx.is_init, h, ctx_init]

lemma ctx_cleanup_conn (w : World) : ((ctx_cleanup w).1).ctx.connection = none := by
  unfold ctx_cleanup
  rcases h : w.ctx.connection with _ | lc
  · simpa using h
  · simp

lemma ctx_cleanup_transactions (w : World) :
    ((ctx_cleanup w).1).ctx.transactions = w.ctx.transactions := by
  unfold ctx_cleanup
  rcases h : w.ctx.connection with _ | lc <;> simp

lemma ctx_cleanup_decisions (w : World) : decisions (ctx_cleanup w).1 = decisions w := by
  unfold ctx_cleanup decisions
  rcases h : w.ctx.connection with _ | lc
  · simp
  · rcases hl : lc.connection with _ | id <;>
      simp [LazyConn.cleanup, hl, List.filter_append, isDecision]

lemma conn_commit_ctx (beh : Beh) (w : World) : ((conn_commit beh w).1).ctx = w.ctx := by
  unfold conn_commit
  rcases h : w.ctx.connection with _ | lc <;> simp [World.emit]

lemma conn_commit_decisions (beh : Beh) (w : World) :
    decisions (conn_commit beh w).1 = decisions w := by
  unfold conn_commit decisions
  rcases h : w.ctx.connection with _ | lc
  · simp
  · rcases hl : lc.connection with _ | id <;>
      simp [LazyConn.commit, hl, World.emit, List.filter_append, isDecision]

lemma conn_rollback_ctx (beh : Beh) (w : World) : ((conn_rollback beh w).1).ctx = w.ctx := by
  unfold conn_rollback
  rcases h : w.ctx.connection with _ | lc <;> simp [World.emit]

lemma conn_rollback_decisions (beh : Beh) (w : World) :
    decisions (conn_rollback beh w).1 = decisions w := by
  unfold conn_rollback decisions
  rcases h : w.ctx.connection with _ | lc
  · simp
  · rcases hl : lc.connection with _ | id <;>
      simp [LazyConn.rollback, hl, World.emit, List.filter_append, isDecision]

lemma Transactions_commit_ctx (beh : Beh) (w : World) :
    ((Transactions_commit beh w).1).ctx = w.ctx := by
  simp only [Transactions_commit]
  split
  · simpa using conn_commit_ctx beh w
  · rw [conn_rollback_ctx, conn_commit_ctx]

lemma Transactions_commit_decisions (beh : Beh) (w : World) :
    decisions (Transactions_commit beh w).1 = decisions w := by
  simp only [Transactions_commit]
  split
  · simpa using conn_commit_decisions beh w
  · rw [conn_rollback_decisions, conn_commit_decisions]

lemma Transactions_rollback_ctx (beh : Beh) (w : World) :
    ((Transactions_rollback beh w).1).ctx = w.ctx :=
  conn_rollback_ctx beh w

lemma Transactions_rollback_decisions (beh : Beh) (w : World) :
    decisions (Transactions_rollback beh w).1 = decisions w :=
  conn_rollback_decisions beh w

lemma decisions_emit (w : World) (es : List Ev) :
    decisions (w.emit es) = decisions w ++ es.filter isDecision := by
  simp [decisions, World.emit, List.filter_append]

lemma Transactions_exit_decide_ctx (beh : Beh) (exc : Bool) (w1 : World) :
    ((Transactions_exit_decide beh exc w1).1).ctx = w1.ctx := by
  unfold Transactions_exit_decide
  split
  · split
    · rw [Transactions_rollback_ctx]; rfl
    · rw [Transactions_commit_ctx]; rfl
  · rfl

lemma Transactions_exit_decide_decisions_ne (beh : Beh) (exc : Bool) (w1 : World)
    (h : w1.ctx.transactions ≠ 0) :
    decisions (Transactions_exit_decide beh exc w1).1 = decisions w1 := by
  simp [Transactions_exit_decide, h]

lemma Transactions_exit_decide_decisions_eq (beh : Beh) (exc : Bool) (w1 : World)
    (h : w1.ctx.transactions = 0) :
    decisions (Transactions_exit_decide beh exc w1).1 =
      decisions w1 ++ [if exc then Ev.decideRollback else Ev.decideCommit] := by
  unfold Transactions_exit_decide
  rw [if_pos h]
  rcases exc with _ | _
  · simp [Transactions_commit_decisions, decisions_emit, isDecision]
  · simp [Transactions_rollback_decisions, decisions_emit, isDecision]

lemma Transactions_finally_false (r1 : World × Option PyErr) :
    Transactions_finally false r1 = r1 :=
  rfl

lemma Transactions_finally_conn_true (r1 : World × Option PyErr) :
    ((Transactions_finally true r1).1).ctx.connection = none := by
  simp only [Transactions_finally, if_pos]
  exact ctx_cleanup_conn r1.1

lemma Transactions_finally_transactions (own : Bool) (r1 : World × Option PyErr) :
    ((Transactions_finally own r1).1).ctx.transactions = r1.1.ctx.transactions := by
  unfold Transactions_finally
  split
  · exact ctx_cleanup_transactions r1.1
  · rfl

lemma Transactions_finally_decisions (own : Bool) (r1 : World × Option PyErr) :
    decisions (Transactions_finally own r1).1 = decisions r1.1 := by
  unfold Transactions_finally
  split
  · exact ctx_cleanup_decisions r1.1
  · rfl

lemma Transactions_exit_transactions (beh : Beh) (own exc : Bool) (w : World) :
    ((Transactions_exit beh own exc w).1).ctx.transactions = w.ctx.transactions - 1 := by
  unfold Transactions_exit
  rw [Transactions_finally_transactions,
    congrArg Dbctx.transactions (Transactions_exit_decide_ctx beh exc _)]

lemma Transactions_exit_decisions_ne (beh : Beh) (own exc : Bool) (w : World)
    (h : w.ctx.transactions ≠ 1) :
    decisions (Transactions_exit beh own exc w).1 = decisions w := by
  unfold Transactions_exit
  rw [Transactions_finally_decisions, Transactions_exit_decide_decisions_ne]
  · rfl
  · simpa [sub_eq_zero] using h

lemma Transactions_exit_decisions_eq (beh : Beh) (own exc : Bool) (w : World)
    (h : w.ctx.transactions = 1) :
    decisions (Transactions_exit beh own exc w).1 =
      decisions w ++ [if exc then Ev.decideRollback else Ev.decideCommit] := by
  unfold Transactions_exit
  rw [Transactions_finally_decisions, Transactions_exit_decide_decisions_eq]
  · rfl
  · simp [h]

lemma Transactions_exit_conn_false (beh : Beh) (exc : Bool) (w : World) :
    ((Transactions_exit beh false exc w).1).ctx.connection = w.ctx.connection := by
  unfold Transactions_exit
  rw [Transactions_finally_false,
    congrArg Dbctx.connection (Transactions_exit_decide_ctx beh exc _)]

lemma Transactions_exit_conn_true (beh : Beh) (exc : Bool) (w : World) :
    ((Transactions_exit beh true exc w).1).ctx.connection = none := by
  unfold Transactions_exit
  exact Transactions_finally_conn_true _

lemma ConnectionCtx_exit_false (w : World) : ConnectionCtx_exit false w = (w, none) :=
  rfl

lemma update_run_some (beh : Beh) (rc : Nat) (w : World) (lc : LazyConn)
    (h : w.ctx.connection = some lc) :
    update_run beh rc w =
      (let cr := lc.cursor w.nextId
       let w1 : World := ⟨⟨some cr.1, w.ctx.transactions⟩, cr.2.2.2, w.events ++ cr.2.2.1⟩
       if w.ctx.transactions = 0 then
         let c := cr.1.commit beh
         (w1.emit c.1, c.2, if c.2 = none then some rc else none)
       else (w1, none, some rc)) := by
  unfold update_run
  rw [ConnectionCtx_enter_init w (by simp [h])]
  simp only [h, ConnectionCtx_exit_false]
  split
  · simp
  · simp

lemma update_run_none (beh : Beh) (rc : Nat) (w : World)
    (h : w.ctx.connection = none) :
    update_run beh rc w =
      (⟨⟨none, 0⟩, w.nextId + 1,
         w.events ++ [Ev.openC w.nextId] ++ [Ev.commitC w.nextId] ++ [Ev.closeC w.nextId]⟩,
       if beh.commitFails w.nextId then some PyErr.commitError else none,
       if beh.commitFails w.nextId then none else some rc) := by
  unfold update_run
  rw [ConnectionCtx_enter_uninit w h]
  rcases hC : beh.commitFails w.nextId with _ | _ <;>
    simp [ctx_init, LazyConn.cursor, LazyConn.commit, hC, World.emit,
      ConnectionCtx_exit, ctx_cleanup, LazyConn.cleanup]

lemma CtxInv_transactions_zero (w : World) (hInv : CtxInv w)
    (h : w.ctx.connection = none) : w.ctx.transactions = 0 := by
  rcases hInv with ⟨h0, h1⟩
  by_contra hne
  have hlt : 0 < w.ctx.transactions := lt_of_le_of_ne h0 (Ne.symm hne)
  have hs := h1 hlt
  rw [h] at hs
  simp at hs

/-- Master preservation lemma: from any state satisfying the context
invariant, running a program preserves the invariant, restores the
transaction depth, and — when started at positive depth — adds no
transaction decision events and keeps a connection installed. -/
lemma run_master (beh : Beh) (p : Prog) : ∀ w : World, CtxInv w →
    CtxInv (run beh p w).1 ∧
    (run beh p w).1.ctx.transactions = w.ctx.transactions ∧
    (1 ≤ w.ctx.transactions →
      decisions (run beh p w).1 = decisions w ∧
      ((run beh p w).1).ctx.connection.isSome) := by
  induction p with
  | skip =>
    intro w hInv
    refine ⟨hInv, rfl, fun h1 => ⟨rfl, ?_⟩⟩
    exact hInv.2 (lt_of_lt_of_le one_pos h1)
  | raiseE =>
    intro w hInv
    refine ⟨hInv, rfl, fun h1 => ⟨rfl, ?_⟩⟩
    exact hInv.2 (lt_of_lt_of_le one_pos h1)
  | doUpdate rc =>
    intro w hInv
    simp only [run]
    rcases h : w.ctx.connection with _ | lc
    · have ht : w.ctx.transactions = 0 := CtxInv_transactions_zero w hInv h
      rw [update_run_none beh rc w h]
      refine ⟨⟨le_refl 0, fun hlt => absurd hlt (by simp)⟩, by simp [ht], fun h1 => ?_⟩
      rw [ht] at h1; exact absurd h1 (by norm_num)
    · rw [update_run_some beh rc w lc h]
      by_cases ht : w.ctx.transactions = 0
      · rcases hc : lc.connection with _ | id <;>
          simp_all [CtxInv, LazyConn.cursor, LazyConn.commit, World.emit,
            decisions, List.filter_append, isDecision]
      · rcases hc : lc.connection with _ | id <;>
          simp_all [CtxInv, LazyConn.cursor, World.emit,
            decisions, List.filter_append, isDecision]
  | seq p q ihp ihq =>
    intro w hInv
    simp only [run]
    obtain ⟨p1, p2, p3⟩ := ihp w hInv
    rcases hE : (run beh p w).2 with _ | e
    · simp only [hE]
      obtain ⟨q1, q2, q3⟩ := ihq (run beh p w).1 p1
      refine ⟨q1, by rw [q2, p2], fun h1 => ?_⟩
      obtain ⟨pd, pc⟩ := p3 h1
      obtain ⟨qd, qc⟩ := q3 (by rw [p2]; exact h1)
      exact ⟨by rw [qd, pd], qc⟩
    · simp only [hE]
      exact ⟨p1, p2, p3⟩
  | withConn body ih =>
    intro w hInv
    simp only [run]
    rcases h : w.ctx.connection with _ | lc
    · have ht : w.ctx.transactions = 0 := CtxInv_transactions_zero w hInv h
      rw [ConnectionCtx_enter_uninit w h]
      have hInv1 : CtxInv (ctx_init w) := by
        constructor
        · simp [ctx_init]
        · intro _; simp [ctx_init]
      obtain ⟨b1, b2, b3⟩ := ih (ctx_init w) hInv1
      simp only [ConnectionCtx_exit, if_true]
      have htf : ((ctx_cleanup (run beh body (ctx_init w)).1).1).ctx.transactions = 0 := by
        rw [ctx_cleanup_transactions, b2]; simp [ctx_init]
      refine ⟨⟨by rw [htf], fun hlt => absurd hlt (by rw [htf]; simp)⟩,
        by rw [htf, ht], fun h1 => ?_⟩
      rw [ht] at h1; exact absurd h1 (by norm_num)
    · rw [ConnectionCtx_enter_init w (by simp [h])]
      simp only [ConnectionCtx_exit_false]
      exact ih w hInv
  | withTx body ih =>
    intro w hInv
    simp only [run]
    rcases h : w.ctx.connection with _ | lc
    · have ht : w.ctx.transactions = 0 := CtxInv_transactions_zero w hInv h
      rw [Transactions_enter_uninit w h]
      have hInv1 : CtxInv (⟨⟨some ⟨none⟩, 1⟩, w.nextId, w.events⟩ : World) := by
        constructor
        · norm_num
        · intro _; rfl
      obtain ⟨b1, b2, b3⟩ := ih _ hInv1
      have htf : ((Transactions_exit beh true
          (run beh body ⟨⟨some ⟨none⟩, 1⟩, w.nextId, w.events⟩).2.isSome
          (run beh body ⟨⟨some ⟨none⟩, 1⟩, w.nextId, w.events⟩).1).1).ctx.transactions = 0 := by
        rw [Transactions_exit_transactions, b2]; norm_num
      refine ⟨⟨by rw [htf], fun hlt => absurd hlt (by rw [htf]; simp)⟩,
        by rw [htf, ht], fun h1 => ?_⟩
      rw [ht] at h1; exact absurd h1 (by norm_num)
    · rw [Transactions_enter_init w (by simp [h])]
      have hInv1 : CtxInv ({ w with ctx :=
          { w.ctx with transactions := w.ctx.transactions + 1 } } : World) := by
        constructor
        · have := hInv.1; simp only []; omega
        · intro _; simp [h]
      obtain ⟨b1, b2, b3⟩ := ih _ hInv1
      have hb1 : (1 : Int) ≤ w.ctx.transactions + 1 := by have := hInv.1; omega
      obtain ⟨bd, bc⟩ := b3 hb1
      have hrt : (run beh body { w with ctx :=
          { w.ctx with transactions := w.ctx.transactions + 1 } }).1.ctx.transactions
          = w.ctx.transactions + 1 := b2
      have htf : ((Transactions_exit beh false
          (run beh body { w with ctx :=
            { w.ctx with transactions := w.ctx.transactions + 1 } }).2.isSome
          (run beh body { w with ctx :=
            { w.ctx with transactions := w.ctx.transactions + 1 } }).1).1).ctx.transactions
          = w.ctx.transactions := by
        rw [Transactions_exit_transactions, hrt]; ring
      refine ⟨⟨by rw [htf]; exact hInv.1, fun hlt => ?_⟩, htf, fun h1 => ?_⟩
      · rw [Transactions_exit_conn_false]; exact bc
      · constructor
        · rw [Transactions_exit_decisions_ne beh false _ _ (by rw [hrt]; omega), bd]
          rfl
        · rw [Transactions_exit_conn_false]; exact bc

lemma Transactions_enter_events (w : World) :
    ((Transactions_enter w).1).events = w.events := by
  simp only [Transactions_enter]
  split <;> simp [ctx_init]

lemma ctx_cleanup_closes (w : World) (id : Nat)
    (h : w.ctx.connection = some ⟨some id⟩) :
    Ev.closeC id ∈ ((ctx_cleanup w).1).events := by
  unfold ctx_cleanup
  rw [h]
  simp [LazyConn.cleanup]

lemma find_map_set {α : Type} (tl : List (String × α)) (k : String) (v : α)
    (ha : tl.any (fun p => p.1 = k) = true) :
    List.find? (fun p => p.1 = k)
      (tl.map (fun p => if p.1 = k then (k, v) else p)) = some (k, v) := by
  induction tl with
  | nil => simp at ha
  | cons hd tl ih =>
    by_cases hk : hd.1 = k
    · simp [List.find?_cons, hk]
    · have ha2 : tl.any (fun p => p.1 = k) = true := by
        simpa [List.any_cons, hk] using ha
      simp [List.find?_cons, hk, ih ha2]

lemma find_append_right {α : Type} (f : List (String × α)) (k : String) (v : α)
    (ha : f.any (fun p => p.1 = k) = false) :
    List.find? (fun p => p.1 = k) (f ++ [(k, v)]) = some (k, v) := by
  rw [List.find?_append]
  have hnone : List.find? (fun p => p.1 = k) f = none := by
    rw [List.find?_eq_none]
    intro x hx
    have := List.any_eq_false.mp ha x hx
    simpa using this
  rw [hnone]
  simp [List.find?_cons]

lemma find_dictSet {α : Type} (f : List (String × α)) (k : String) (v : α) :
    List.find? (fun p => p.1 = k) (dictSet f k v) = some (k, v) := by
  unfold dictSet
  rcases ha : f.any (fun p => p.1 = k) with _ | _
  · rw [if_neg (by simp [ha])]
    exact find_append_right f k v ha
  · rw [if_pos (by simp [ha])]
    exact find_map_set f k v ha

/-- **C8**: after a successful first `create_engine` call, a second call
in the same process fails with `DBError` and leaves the engine installed
by the first call in place unchanged. -/
theorem claim_C8 (a1 a2 : CEArgs) :
    create_engine none a1 = (some (buildParams a1), none) ∧
    create_engine (create_engine none a1).1 a2 =
      (some (buildParams a1), some PyErr.dbError) :=
  ⟨rfl, rfl⟩

/-- **C4** (counterexample): on a lazy connection that was never opened,
`commit()` and `rollback()` are not error-free no-ops — both raise. -/
theorem claim_C4_counterexample :
    ¬((LazyConn.commit beh0 ⟨none⟩).2 = none ∧
      (LazyConn.rollback beh0 ⟨none⟩).2 = none) := by
  decide

/-- **C4** (amended): on a lazy connection whose raw connection was
never opened, `commit()` and `rollback()` raise an `AttributeError`
(they call `.commit()` / `.rollback()` on `None`) and issue no driver
call. -/
theorem claim_C4_amended (beh : Beh) :
    LazyConn.commit beh ⟨none⟩ = ([], some PyErr.attrError) ∧
    LazyConn.rollback beh ⟨none⟩ = ([], some PyErr.attrError) :=
  ⟨rfl, rfl⟩

/-- **C9** (counterexample): a `Field` record is not read-only —
attribute assignment on a constructed record changes its mapping from
column names to values. -/
theorem claim_C9_counterexample :
    Record.setattr (Record.ofLists ["a"] [1]) "a" 2 ≠
      Record.ofLists ["a"] [(1 : Nat)] := by
  decide

/-- **C9** (amended): a `Field` record is mutable after construction:
`__setattr__` writes through to the mapping, and a subsequent attribute
access returns the newly stored value. -/
theorem claim_C9_amended {α : Type} (f : Record α) (k : String) (v : α) :
    Record.getattr (Record.setattr f k v) k = Except.ok v := by
  unfold Record.getattr Record.setattr
  rw [find_dictSet]

/-- **C10**: attribute access on a `Field` record raises
`AssertionError` when the name matches no column (never a silent
default), and returns the stored value when it does. -/
theorem claim_C10 {α : Type} (f : Record α) (n : String) :
    (f.any (fun p => p.1 = n) = false →
      Record.getattr f n = Except.error PyErr.assertionError) ∧
    (∀ v : α, List.find? (fun p => p.1 = n) f = some (n, v) →
      Record.getattr f n = Except.ok v) := by
  constructor
  · intro h
    unfold Record.getattr
    have hnone : List.find? (fun p => p.1 = n) f = none := by
      rw [List.find?_eq_none]
      intro x hx
      have := List.any_eq_false.mp h x hx
      simpa using this
    rw [hnone]
  · intro v hv
    unfold Record.getattr
    rw [hv]

/-- **C10** (witness): on the record `{"id" ↦ 10}`, the column `id`
reads back `10` and the unknown name `uid` raises `AssertionError`. -/
theorem claim_C10_witness :
    Record.getattr (Record.ofLists ["id"] [10]) "uid" =
        Except.error PyErr.assertionError ∧
    Record.getattr (Record.ofLists ["id"] [(10 : Nat)]) "id" = Except.ok 10 :=
  ⟨(claim_C10 (Record.ofLists ["id"] [10]) "uid").1 (by decide),
   (claim_C10 (Record.ofLists ["id"] [(10 : Nat)]) "id").2 10 (by decide)⟩

/-- **C2**: a connection scope entered while the thread-local context
already holds a connection reuses it — its enter returns the state
unchanged with ownership `false`, and the whole scope behaves exactly
like its body, for every body and every exit path; a scope entered with
no connection owns it and clears it on every exit path, including when
the body raised. -/
theorem claim_C2 (beh : Beh) (body : Prog) (w : World) :
    (w.ctx.connection.isSome →
      ConnectionCtx_enter w = (w, false) ∧
      run beh (Prog.withConn body) w = run beh body w) ∧
    (w.ctx.connection = none →
      ((run beh (Prog.withConn body) w).1).ctx.connection = none) := by
  constructor
  · intro h
    refine ⟨ConnectionCtx_enter_init w h, ?_⟩
    simp only [run]
    rw [ConnectionCtx_enter_init w h]
    simp [ConnectionCtx_exit_false, Option.orElse]
  · intro h
    simp only [run]
    rw [ConnectionCtx_enter_uninit w h]
    simp only [ConnectionCtx_exit, if_true]
    exact ctx_cleanup_conn _

/-- **C2** (witness): with a connection installed, a nested scope around
a raising body is transparent; from an empty context, the owning scope
leaves no connection behind even though the body raised. -/
theorem claim_C2_witness :
    (run beh0 (Prog.withConn Prog.raiseE) ⟨⟨some ⟨some 0⟩, 0⟩, 1, []⟩ =
      run beh0 Prog.raiseE ⟨⟨some ⟨some 0⟩, 0⟩, 1, []⟩) ∧
    ((run beh0 (Prog.withConn Prog.raiseE) w0).1).ctx.connection = none :=
  ⟨((claim_C2 beh0 Prog.raiseE ⟨⟨some ⟨some 0⟩, 0⟩, 1, []⟩).1 (by decide)).2,
   (claim_C2 beh0 Prog.raiseE w0).2 (by decide)⟩

/-- **C6**: a transaction-scope exit that owns the connection cleans up
the thread-local context on every path — even when the commit or
rollback performed at depth 0 raised — leaving no installed connection
and closing the raw connection if it was open. -/
theorem claim_C6 (beh : Beh) (exc : Bool) (w : World) (id : Nat)
    (h : w.ctx.connection = some ⟨some id⟩) :
    ((Transactions_exit beh true exc w).1).ctx.connection = none ∧
    Ev.closeC id ∈ ((Transactions_exit beh true exc w).1).events := by
  refine ⟨Transactions_exit_conn_true beh exc w, ?_⟩
  unfold Transactions_exit Transactions_finally
  simp only [if_true]
  apply ctx_cleanup_closes
  rw [congrArg Dbctx.connection (Transactions_exit_decide_ctx beh exc _)]
  exact h

/-- **C6** (witness): with a failing driver (both commit and rollback
raise), the owning exit still clears the context and closes the raw
connection. -/
theorem claim_C6_witness :
    ((Transactions_exit ⟨fun _ => true, fun _ => true⟩ true false
        ⟨⟨some ⟨some 3⟩, 1⟩, 4, []⟩).1).ctx.connection = none ∧
    Ev.closeC 3 ∈ ((Transactions_exit ⟨fun _ => true, fun _ => true⟩ true false
        ⟨⟨some ⟨some 3⟩, 1⟩, 4, []⟩).1).events :=
  claim_C6 ⟨fun _ => true, fun _ => true⟩ false ⟨⟨some ⟨some 3⟩, 1⟩, 4, []⟩ 3 rfl

/-- **C5**: when the depth-0 exit decides to commit and the driver commit
fails, a rollback is issued on the same connection and the commit error
is swallowed (the exit reports no error); when the fallback rollback
itself also fails, that failure propagates to the caller. -/
theorem claim_C5 (beh : Beh) (w : World) (id : Nat)
    (h : w.ctx.connection = some ⟨some id⟩) (h1 : w.ctx.transactions = 1)
    (hc : beh.commitFails id = true) :
    (beh.rollbackFails id = false →
      Transactions_exit beh false false w =
        (⟨⟨some ⟨some id⟩, 0⟩, w.nextId,
          w.events ++ [Ev.decideCommit, Ev.commitC id, Ev.rollbackC id]⟩, none)) ∧
    (beh.rollbackFails id = true →
      (Transactions_exit beh false false w).2 = some PyErr.rollbackError) := by
  rcases w with ⟨⟨c, t⟩, n, es⟩
  obtain rfl : c = some ⟨some id⟩ := h
  obtain rfl : t = 1 := h1
  constructor <;> intro hr <;>
    simp [Transactions_exit, Transactions_exit_decide, Transactions_finally,
      Transactions_commit, Transactions_rollback, conn_commit, conn_rollback,
      LazyConn.commit, LazyConn.rollback, World.emit, hc, hr]

/-- **C5** (witness): at depth 1 with an open connection whose commit
fails, the exit returns no error and logs commit-then-rollback; when the
rollback also fails, the exit reports the rollback error. -/
theorem claim_C5_witness :
    Transactions_exit ⟨fun _ => true, fun _ => false⟩ false false
        ⟨⟨some ⟨some 0⟩, 1⟩, 1, []⟩ =
      (⟨⟨some ⟨some 0⟩, 0⟩, 1,
        [Ev.decideCommit, Ev.commitC 0, Ev.rollbackC 0]⟩, none) ∧
    (Transactions_exit ⟨fun _ => true, fun _ => true⟩ false false
        ⟨⟨some ⟨some 0⟩, 1⟩, 1, []⟩).2 = some PyErr.rollbackError := by
  constructor
  · have := (claim_C5 ⟨fun _ => true, fun _ => false⟩ ⟨⟨some ⟨some 0⟩, 1⟩, 1, []⟩ 0
      rfl rfl rfl).1 rfl
    simpa using this
  · exact (claim_C5 ⟨fun _ => true, fun _ => true⟩ ⟨⟨some ⟨some 0⟩, 1⟩, 1, []⟩ 0
      rfl rfl rfl).2 rfl

/-- **C1**: for a chain of nested transaction scopes entered at depth 0,
the scopes inside the chain contribute no commit/rollback decision; the
whole chain produces exactly one decision, taken at the exit that brings
the depth back to 0, and it is a commit iff no scope body anywhere in
the chain raised (a raise anywhere forces the rollback decision). -/
theorem claim_C1 (beh : Beh) (body : Prog) (w : World)
    (h0 : w.ctx.transactions = 0) :
    decisions (run beh body (Transactions_enter w).1).1 =
      decisions (Transactions_enter w).1 ∧
    decisions (run beh (Prog.withTx body) w).1 =
      decisions w ++
        [if (run beh body (Transactions_enter w).1).2.isSome then Ev.decideRollback
         else Ev.decideCommit] := by
  have h1t : ((Transactions_enter w).1).ctx.transactions = 1 := by
    rcases hc : w.ctx.connection with _ | lc
    · rw [Transactions_enter_uninit w hc]
    · rw [Transactions_enter_init w (by simp [hc])]
      simp [h0]
  have h1inv : CtxInv (Transactions_enter w).1 := by
    constructor
    · rw [h1t]; norm_num
    · intro _
      rcases hc : w.ctx.connection with _ | lc
      · rw [Transactions_enter_uninit w hc]; rfl
      · rw [Transactions_enter_init w (by simp [hc])]; simp [hc]
  obtain ⟨m1, m2, m3⟩ := run_master beh body (Transactions_enter w).1 h1inv
  obtain ⟨md, _⟩ := m3 (by rw [h1t])
  have hde : decisions (Transactions_enter w).1 = decisions w := by
    unfold decisions
    rw [Transactions_enter_events]
  refine ⟨md, ?_⟩
  simp only [run]
  rw [Transactions_exit_decisions_eq beh _ _ _ (by rw [m2, h1t]), md, hde]

/-- **C1** (witness): a successful chain commits once; a chain whose
inner scope body raises rolls back once — in both cases exactly one
decision, made at the outermost exit. -/
theorem claim_C1_witness :
    decisions (run beh0 (Prog.withTx (Prog.withTx (Prog.doUpdate 1))) w0).1 =
      [Ev.decideCommit] ∧
    decisions (run beh0 (Prog.withTx (Prog.withTx Prog.raiseE)) w0).1 =
      [Ev.decideRollback] := by
  constructor
  · have h := (claim_C1 beh0 (Prog.withTx (Prog.doUpdate 1)) w0 rfl).2
    rw [h]; decide
  · have h := (claim_C1 beh0 (Prog.withTx Prog.raiseE) w0 rfl).2
    rw [h]; decide

/-- **C3**: any well-nested execution from a state satisfying the depth
invariant (depth ≥ 0, positive depth implies an installed connection)
preserves it and restores the depth; and `_Transactions.__exit__` emits
a commit/rollback decision exactly when it moves the depth from 1 to 0:
never otherwise, always then. -/
theorem claim_C3 (beh : Beh) :
    (∀ (p : Prog) (w : World), CtxInv w →
      CtxInv (run beh p w).1 ∧
      (run beh p w).1.ctx.transactions = w.ctx.transactions) ∧
    (∀ (own exc : Bool) (w : World), w.ctx.transactions ≠ 1 →
      decisions (Transactions_exit beh own exc w).1 = decisions w) ∧
    (∀ (own exc : Bool) (w : World), w.ctx.transactions = 1 →
      decisions (Transactions_exit beh own exc w).1 =
        decisions w ++ [if exc then Ev.decideRollback else Ev.decideCommit]) :=
  ⟨fun p w h => ⟨(run_master beh p w h).1, (run_master beh p w h).2.1⟩,
   fun own exc w h => Transactions_exit_decisions_ne beh own exc w h,
   fun own exc w h => Transactions_exit_decisions_eq beh own exc w h⟩

/-- **C3** (witness): the invariant holds after a nested run from the
initial state; an exit from depth 2 emits no decision; an exit from
depth 1 emits exactly the rollback decision. -/
theorem claim_C3_witness :
    (CtxInv (run beh0 (Prog.withTx (Prog.withTx Prog.skip)) w0).1 ∧
      (run beh0 (Prog.withTx (Prog.withTx Prog.skip)) w0).1.ctx.transactions = 0) ∧
    decisions (Transactions_exit beh0 false true ⟨⟨some ⟨some 0⟩, 2⟩, 1, []⟩).1 = [] ∧
    decisions (Transactions_exit beh0 false true ⟨⟨some ⟨some 0⟩, 1⟩, 1, []⟩).1 =
      [Ev.decideRollback] := by
  refine ⟨(claim_C3 beh0).1 (Prog.withTx (Prog.withTx Prog.skip)) w0 (by decide),
    ?_, ?_⟩
  · have h := (claim_C3 beh0).2.1 false true ⟨⟨some ⟨some 0⟩, 2⟩, 1, []⟩ (by decide)
    rw [h]; decide
  · have h := (claim_C3 beh0).2.2 false true ⟨⟨some ⟨some 0⟩, 1⟩, 1, []⟩ (by decide)
    rw [h]; decide

/-- **C7**: with a driver whose commits succeed, `_update` (to which
`update` and `insert` delegate) raises nothing and returns the
affected-row count, and it issues a driver commit immediately iff the
transaction nesting depth is 0; at positive depth it issues no commit. -/
theorem claim_C7 (beh : Beh) (rc : Nat) (w : World) (hInv : CtxInv w)
    (hc : ∀ i, beh.commitFails i = false) :
    (update_run beh rc w).2.1 = none ∧
    (update_run beh rc w).2.2 = some rc ∧
    (w.ctx.transactions = 0 →
      commitCount (update_run beh rc w).1 = commitCount w + 1) ∧
    (0 < w.ctx.transactions →
      commitCount (update_run beh rc w).1 = commitCount w) := by
  rcases h : w.ctx.connection with _ | lc
  · have ht : w.ctx.transactions = 0 := CtxInv_transactions_zero w hInv h
    rw [update_run_none beh rc w h]
    refine ⟨by simp [hc], by simp [hc], fun _ => ?_,
      fun hpos => absurd hpos (by rw [ht]; norm_num)⟩
    simp [commitCount, isDriverCommit, List.filter_append]
  · rw [update_run_some beh rc w lc h]
    by_cases ht : w.ctx.transactions = 0
    · rcases hlc : lc.connection with _ | id <;>
        refine ⟨by simp [ht, hlc, LazyConn.cursor, LazyConn.commit, hc],
          by simp [ht, hlc, LazyConn.cursor, LazyConn.commit, hc],
          fun _ => ?_, fun hpos => absurd hpos (by rw [ht]; norm_num)⟩ <;>
        simp [ht, hlc, LazyConn.cursor, LazyConn.commit, hc, World.emit,
          commitCount, isDriverCommit, List.filter_append]
    · rcases hlc : lc.connection with _ | id <;>
        refine ⟨by simp [ht, hlc, LazyConn.cursor], by simp [ht, hlc, LazyConn.cursor],
          fun h0 => absurd h0 ht, fun _ => ?_⟩ <;>
        simp [ht, hlc, LazyConn.cursor, commitCount, isDriverCommit,
          List.filter_append]

/-- **C7** (witness): at depth 0 an update commits once; at depth 1 it
commits nothing; both return the row count. -/
theorem claim_C7_witness :
    ((update_run beh0 7 w0).2.2 = some 7 ∧
      commitCount (update_run beh0 7 w0).1 = 1) ∧
    ((update_run beh0 7 ⟨⟨some ⟨none⟩, 1⟩, 0, []⟩).2.2 = some 7 ∧
      commitCount (update_run beh0 7 ⟨⟨some ⟨none⟩, 1⟩, 0, []⟩).1 = 0) := by
  have h1 := claim_C7 beh0 7 w0 (by decide) (fun i => rfl)
  have h2 := claim_C7 beh0 7 ⟨⟨some ⟨none⟩, 1⟩, 0, []⟩ (by decide) (fun i => rfl)
  exact ⟨⟨h1.2.1, by rw [h1.2.2.1 rfl]; decide⟩,
    ⟨h2.2.1, by rw [h2.2.2.2 (by decide)]; decide⟩⟩
